import Mathlib

/-!
Shallow embedding of the core of the TESS-IDA-TOOLS pipeline
(repository STARS4ALL/TESS-IDA-TOOLS) and proofs about it.

Each definition mirrors a function of the Python source; the file paths and
line numbers in the doc comments point at the embedded code.  I/O effects
(files read or written, directories created, rows of the auxiliary sqlite
store) are made explicit as values: file content and the transform outcome
enter as parameters, and each operation returns the store rows and the write
events it produces.
-/

namespace TessIda

/-- Decidable equality of `Except` values, for evaluating concrete outcomes. -/
instance {ε α : Type _} [DecidableEq ε] [DecidableEq α] : DecidableEq (Except ε α)
  | .error a, .error b =>
    if h : a = b then .isTrue (by rw [h]) else .isFalse (by simp [h])
  | .error _, .ok _ => .isFalse (by simp)
  | .ok _, .error _ => .isFalse (by simp)
  | .ok a, .ok b =>
    if h : a = b then .isTrue (by rw [h]) else .isFalse (by simp [h])

/-! ## Auxiliary store: the `ecsv_t` (filename, hash) table

`src/src/tess/ida/dbase/api.py`, configured-database branch.  The table is
modelled as its list of rows in insertion order. -/

/-- Rows of the `ecsv_t` table: (filename, hash) pairs in insertion order. -/
abbrev HashCache := List (String × String)

/-- Model of `aux_table_hashes_lookup` (dbase/api.py:70-78):
`SELECT filename, hash FROM ecsv_t WHERE filename = ?` followed by `fetchone`:
the first row whose filename matches, if any. -/
def aux_table_hashes_lookup (filename : String) (cache : HashCache) : Option (String × String) :=
  cache.find? (fun r => r.1 == filename)

/-- Model of `aux_table_hashes_insert` (dbase/api.py:56-60):
`INSERT INTO ecsv_t(filename, hash) VALUES(?,?)` appends one row. -/
def aux_table_hashes_insert (data : String × String) (cache : HashCache) : HashCache :=
  cache ++ [data]

/-- Model of `aux_table_hashes_update` (dbase/api.py:62-68):
`UPDATE ecsv_t SET hash = ? WHERE filename = ?` rewrites the hash of every row
whose filename matches. -/
def aux_table_hashes_update (data : String × String) (cache : HashCache) : HashCache :=
  cache.map (fun r => if r.1 == data.1 then (r.1, data.2) else r)

/-! ## The incremental transformer: `do_to_ecsv_single`

`src/src/tess/ida/timeseries.py:310-327`.  The hash function `hash_func`
(an external digest of the raw file's bytes, utils/utils.py:61-71) and the
transform `create_table` (parse + ephemeris augmentation, which may fail)
enter as function parameters; `content` stands for the bytes found at
`in_path`, `filename` for `os.path.basename(in_path)`, and `outExists` for
`os.path.isfile(out_path)`. -/

/-- Observable outcome of one `do_to_ecsv_single` call: the `ecsv_t` rows
after the call, the artifact written to `out_path` (if any), and the
exception the call raised (if any).  `written = none` and `err = none`
together mean the call skipped or did nothing visible. -/
structure XformResult (Table TErr : Type) where
  cache : HashCache
  written : Option Table
  err : Option TErr
  deriving DecidableEq, Repr

/-- Model of `do_to_ecsv_single` (timeseries.py:310-327).  Looks up the cached hash for
the basename; on a hit with a differing digest or a missing output file it
updates the cache row and re-transforms, on a hit with an equal digest and an
existing output it skips, and on a miss it inserts a cache row and
transforms.  Note the source calls `aux_table_hashes_update` /
`aux_table_hashes_insert` before `create_table`, so the cache mutation
happens even when the transform raises. -/
def do_to_ecsv_single {Content Table TErr : Type} (hashF : Content → String)
    (transform : Content → Except TErr Table) (filename : String) (content : Content)
    (outExists : Bool) (cache : HashCache) : XformResult Table TErr :=
  let digest := hashF content
  match aux_table_hashes_lookup filename cache with
  | some (_, stored_hash_str) =>
    if digest ≠ stored_hash_str ∨ outExists = false then
      let cache1 := aux_table_hashes_update (filename, digest) cache
      match transform content with
      | .ok table => ⟨cache1, some table, none⟩
      | .error e => ⟨cache1, none, some e⟩
    else
      ⟨cache, none, none⟩
  | none =>
    let cache1 := aux_table_hashes_insert (filename, digest) cache
    match transform content with
    | .ok table => ⟨cache1, some table, none⟩
    | .error e => ⟨cache1, none, some e⟩

/-! ## Month enumeration and batching

`group` is `src/src/tess/ida/utils.py:33-35`; `month_range` is
`src/src/tess/ida/utils/utils.py:28-32`.  A calendar month is modelled as its
absolute month index `t : Nat` (year `t / 12`, month-of-year `t % 12 + 1`),
so that the source's `month += relativedelta(months=1)` is `t + 1`. -/

/-- Model of `group n iterable` (utils.py:33-35): `iter(lambda: list(islice(it, n)), [])`
chops the sequence into consecutive slices of `n` elements, stopping at the
first empty slice.  In particular `group 0 xs = []`, because `islice(it, 0)`
immediately returns the `[]` sentinel. -/
def group {α : Type} (n : Nat) (xs : List α) : List (List α) :=
  if h : n = 0 ∨ xs.isEmpty then []
  else xs.take n :: group n (xs.drop n)
termination_by xs.length
decreasing_by
  rw [not_or] at h
  have hx : xs ≠ [] := by
    intro hx
    exact h.2 (by simp [hx])
  have hlen : 0 < xs.length := List.length_pos.mpr hx
  simp only [List.length_drop]
  omega

/-- Two-digit zero-padded decimal rendering: the model of `strftime` `%m`
(always two digits for months 1..12). -/
def fmt2 (n : Nat) : String :=
  String.mk [Char.ofNat (48 + n / 10 % 10), Char.ofNat (48 + n % 10)]

/-- Four-digit zero-padded decimal rendering: the model of `strftime` `%Y`
(`datetime` years range over 1..9999). -/
def fmt4 (n : Nat) : String :=
  String.mk [Char.ofNat (48 + n / 1000 % 10), Char.ofNat (48 + n / 100 % 10),
    Char.ofNat (48 + n / 10 % 10), Char.ofNat (48 + n % 10)]

/-- Model of `month.strftime("%Y-%m")` for the month of absolute index `t`. -/
def monthStr (t : Nat) : String :=
  fmt4 (t / 12) ++ "-" ++ fmt2 (t % 12 + 1)

/-- Model of `month.strftime("%Y%m")` for the month of absolute index `t`, the form
used in the default combined-artifact filename (timeseries.py:399). -/
def monthStrCompact (t : Nat) : String :=
  fmt4 (t / 12) ++ fmt2 (t % 12 + 1)

/-- Model of `month_range` (utils/utils.py:28-32): yields `strftime("%Y-%m")` of every
month from `since` up to and including `untilm`, in order; empty when
`since > untilm`. -/
def month_range (since untilm : Nat) : List String :=
  (List.range' since (untilm + 1 - since)).map monthStr

/-! ## Download orchestrator

`src/src/tess/ida/download.py`.  An HTTP response is modelled by its
observable shape: a 404, or any other status together with the body text
(the source writes the body for every non-404 status), or a transport
failure that raises.  `do_ida_single` is modelled by the write events it
performs. -/

/-- Shape of the response a single fetch receives. -/
inductive Resp where
  | notFound
  | success (body : String)
  | failure
  deriving DecidableEq, Repr

/-- Observable outcome of one `do_ida_single` call. -/
structure FetchResult where
  /-- Body written to `<ida_base_dir>/<name>/<target_file>`, if any. -/
  wrote : Option String
  /-- Whether `makedirs` ran for the per-entity directory. -/
  madeDir : Bool
  /-- Whether the call raised (transport failure). -/
  raised : Bool
  deriving DecidableEq, Repr

/-- Model of `do_ida_single` (download.py:127-144) as a function of the response it
receives: a 404 logs and returns before `makedirs` and before any write; any
other status has its body written under the per-entity directory (created
first); a transport failure raises out of the call. -/
def do_ida_single (resp : Resp) : FetchResult :=
  match resp with
  | .notFound => ⟨none, false, false⟩
  | .success body => ⟨some body, true, false⟩
  | .failure => ⟨none, false, true⟩

/-- One wave of `do_ida_range` (download.py:156-163): the tasks of a batch are
created together and awaited together; each runs `do_ida_single` on its own
response independently of its siblings. -/
def ida_batch (resps : List Resp) : List FetchResult :=
  resps.map do_ida_single

/-- Model of `do_ida_range` (download.py:147-163), reduced to the wave structure it
issues: the inclusive month sequence is cut by `group` into consecutive
batches of at most `n` fetches, and the waves run strictly one after another
(`await asyncio.gather` ends a wave before the next `for` iteration starts). -/
def do_ida_range_waves (n : Nat) (since untilm : Nat) : List (List String) :=
  group n (month_range since untilm)

/-! ## String primitives

The Python string operations the embedded code uses (`strip`, `lower`,
`split(sep)` for a one-character separator, `os.path.splitext`) are modelled
on the character list `String.data`, by structural recursion, so that every
definition evaluates by kernel reduction. -/

/-- Model of `str.split(c)` for a one-character separator: every occurrence separates,
adjacent separators give empty fields, and the result is never empty. -/
def splitOnChar (c : Char) : List Char → List (List Char)
  | [] => [[]]
  | x :: rest =>
    if x = c then [] :: splitOnChar c rest
    else
      match splitOnChar c rest with
      | h :: t => (x :: h) :: t
      | [] => [[x]]

/-- Model of `str.strip()`: drop whitespace from both ends. -/
def pyStrip (cs : List Char) : List Char :=
  ((cs.dropWhile Char.isWhitespace).reverse.dropWhile Char.isWhitespace).reverse

/-- Model of `str.lower()`. -/
def pyLower (cs : List Char) : List Char :=
  cs.map Char.toLower

/-- Model of `os.path.splitext(s)[0]`: the part before the last dot, or all of `s` when
there is no dot (the filenames handled here never start with a dot). -/
def stemChars (cs : List Char) : List Char :=
  if '.' ∈ cs then ((cs.reverse.dropWhile (fun c => c ≠ '.')).drop 1).reverse
  else cs

/-- Model of `v_or_n` (utils/utils.py:55-58): strips the token and maps the sentinel
spellings "none"/"unknown"/"" (case-insensitively) to an explicit no-value. -/
def v_or_n (value : String) : Option String :=
  let t := pyStrip value.data
  if pyLower t = "none".data ∨ pyLower t = "unknown".data ∨ t = [] then none
  else some (String.mk t)

/-! ## `float(...)` on header tokens

Model of Python's `float(str)` on the decimal literals that occur in IDA
headers: optional sign, digits with an optional fraction part, optional
decimal exponent.  (Python additionally accepts `inf`/`nan` spellings and
digit-group underscores; those forms never appear in position fields and are
out of scope.)  A string outside this grammar raises `ValueError`, modelled
as `none`. -/

/-- The natural number denoted by a list of decimal digit characters, most
significant first. -/
def decDigits (ds : List Char) : Nat :=
  ds.foldl (fun a c => 10 * a + (c.toNat - 48)) 0

/-- Model of `float(s)` on a stripped token: `some` of the rational value it denotes,
`none` for a `ValueError`. -/
def pyFloat (s : String) : Option ℚ :=
  let (neg, cs0) :=
    match s.data with
    | '+' :: rest => (false, rest)
    | '-' :: rest => (true, rest)
    | cs => (false, cs)
  let ip := cs0.takeWhile Char.isDigit
  let cs1 := cs0.dropWhile Char.isDigit
  let (fp, cs2) :=
    match cs1 with
    | '.' :: rest => (rest.takeWhile Char.isDigit, rest.dropWhile Char.isDigit)
    | _ => ([], cs1)
  if ip.isEmpty && fp.isEmpty then none
  else
    let mantissa : ℚ := (decDigits ip : ℚ) + (decDigits fp : ℚ) / (10 : ℚ) ^ fp.length
    let signed : ℚ := if neg then -mantissa else mantissa
    match cs2 with
    | [] => some signed
    | 'e' :: rest | 'E' :: rest =>
      let (eneg, es) :=
        match rest with
        | '+' :: r => (false, r)
        | '-' :: r => (true, r)
        | r => (false, r)
      let ed := es.takeWhile Char.isDigit
      let rem := es.dropWhile Char.isDigit
      if ed.isEmpty || !rem.isEmpty then none
      else
        let e : ℤ := if eneg then -(decDigits ed : ℤ) else (decDigits ed : ℤ)
        some (signed * (10 : ℚ) ^ e)
    | _ => none

/-! ## Position resolution and the coordinate fallback

`ida_metadata`, `src/src/tess/ida/timeseries.py:137-220`.  Only `TypeError`
is caught around the position conversion (timeseries.py:169); `float` on a
non-numeric, non-sentinel token raises `ValueError`, which escapes. -/

/-- Exceptions the position block can produce: `TypeError` (from
`float(None)`; caught at timeseries.py:169) and `ValueError` (from `float` on
a non-numeric string, or from unpacking a comma-split of the wrong arity;
not caught). -/
inductive PyErr where
  | typeError
  | valueError
  deriving DecidableEq, Repr

/-- Model of `float(v_or_n(tok))` (timeseries.py:165-166): a sentinel token gives
`float(None)`, i.e. `TypeError`; a non-numeric token gives `ValueError`. -/
def floatOfToken (tok : String) : Except PyErr ℚ :=
  match v_or_n tok with
  | none => .error .typeError
  | some t =>
    match pyFloat t with
    | some q => .ok q
    | none => .error .valueError

/-- Model of `float(v_or_n(height)) if v_or_n(height) else 0.0` (timeseries.py:167):
a sentinel height token falls back to `0.0` instead of raising. -/
def floatOfHeight (tok : String) : Except PyErr ℚ :=
  match v_or_n tok with
  | none => .ok 0
  | some t =>
    match pyFloat t with
    | some q => .ok q
    | none => .error .valueError

/-- The position conversion of `ida_metadata` (timeseries.py:162-168):
`header[Position].split(",")` must unpack into exactly three tokens
(otherwise `ValueError`), which are then converted left to right. -/
def resolvePosition (posField : String) : Except PyErr (ℚ × ℚ × ℚ) :=
  match splitOnChar ',' posField.data with
  | [latitude, longitude, height] => do
    let la ← floatOfToken (String.mk latitude)
    let lo ← floatOfToken (String.mk longitude)
    let h ← floatOfHeight (String.mk height)
    .ok (la, lo, h)
  | _ => .error .valueError

/-- Rows of the `coords_t` table: (phot_name, latitude, longitude, height). -/
abbrev CoordsTable := List (String × ℚ × ℚ × ℚ)

/-- Model of `next(aux_table_coords_lookup(name))` (dbase/api.py:80-89): `fetchone` of
`SELECT phot_name, latitude, longitude, height FROM coords_t WHERE
phot_name = ?`.  The unconfigured-store variant (dbase/api.py:112-113) always
yields `None` and therefore behaves as the empty table. -/
def aux_table_coords_lookup (name : String) (coords : CoordsTable) :
    Option (String × ℚ × ℚ × ℚ) :=
  coords.find? (fun r => r.1 == name)

/-- Ways `ida_metadata` can fail: `NoCoordinatesError` (timeseries.py:177 and
185), an uncaught `ValueError` escaping the position block, or an
`AssertionError` from the channel/column checks (timeseries.py:200, 207,
208). -/
inductive MetaErr where
  | noCoordinates
  | valueError
  | assertionError
  deriving DecidableEq, Repr

/-- The two structural variants of an IDA file. -/
inductive Variant where
  | tessw
  | tess4c
  deriving DecidableEq, Repr

/-- The header-dict fields that drive the control flow of `ida_metadata`
modelled here: the raw `Position` string, and the already-converted
`Number of channels` and `Number of fields per line` integers
(timeseries.py:151, 198).  The other header fields do not influence the
modelled behaviour and are left out. -/
structure HeaderIn where
  position : String
  numChannels : Int
  numCols : Int
  deriving DecidableEq, Repr

/-- The modelled fields of the header `ida_metadata` returns. -/
structure HeaderOut where
  position : ℚ × ℚ × ℚ
  numChannels : Int
  numCols : Int
  variant : Variant
  deriving DecidableEq, Repr

/-- Position resolution with the coordinate fallback
(timeseries.py:162-195): on the caught `TypeError`, fix mode disabled raises
`NoCoordinatesError`; fix mode enabled consults the coordinates table, an
absent row re-raises `NoCoordinatesError`, a present row substitutes its
(latitude, longitude, height) triple. -/
def ida_position (fix : Bool) (coords : CoordsTable) (name : String) (posField : String) :
    Except MetaErr (ℚ × ℚ × ℚ) :=
  match resolvePosition posField with
  | .ok p => .ok p
  | .error .valueError => .error .valueError
  | .error .typeError =>
    if fix = false then .error .noCoordinates
    else
      match aux_table_coords_lookup name coords with
      | none => .error .noCoordinates
      | some (_, lati, longi, h) => .ok (lati, longi, h)

/-- The channel/column validation of `ida_metadata` (timeseries.py:199-219):
`if channels == 1: assert cols == 8` and otherwise
`assert channels == 4; assert cols == 17`. -/
def ida_variant_check (numChannels numCols : Int) : Except MetaErr Variant :=
  if numChannels = 1 then
    if numCols = 8 then .ok .tessw else .error .assertionError
  else
    if numChannels = 4 then
      if numCols = 17 then .ok .tess4c else .error .assertionError
    else .error .assertionError

/-- Model of `ida_metadata` (timeseries.py:137-220) restricted to the modelled fields:
the position block (with fallback) runs first, then the channel/column
checks; the first failure propagates. -/
def ida_metadata (fix : Bool) (coords : CoordsTable) (name : String) (h : HeaderIn) :
    Except MetaErr HeaderOut :=
  match ida_position fix coords name h.position with
  | .error e => .error e
  | .ok pos =>
    match ida_variant_check h.numChannels h.numCols with
    | .error e => .error e
    | .ok var => .ok ⟨pos, h.numChannels, h.numCols, var⟩

/-! ## The range combiner: `to_ecsv_combine`

`src/src/tess/ida/timeseries.py:370-407`.  Files are identified by their
basenames (the per-entity directory prefix is common to all candidates and
drops out); an astropy table is modelled by the parts the combiner touches:
its rows and its `combined` metadata entry. -/

/-- The parts of a table the combiner manipulates: the data rows and the
`combined` metadata entry (absent on monthly derived artifacts). -/
structure Table (Row : Type) where
  rows : List Row
  combined : Option (List String)
  deriving DecidableEq, Repr

/-- Model of `append_table` (timeseries.py:306-307): `vstack` concatenates the rows
and merges the metadata; for the list-valued `combined` key astropy's
metadata merge concatenates when both sides carry the key and keeps the
present side otherwise. -/
def append_table {Row : Type} (acc t : Table Row) : Table Row :=
  { rows := acc.rows ++ t.rows
    combined :=
      match acc.combined, t.combined with
      | some a, some b => some (a ++ b)
      | some a, none => some a
      | none, some b => some b
      | none, none => none }

/-- Model of `os.path.splitext(os.path.basename(path))[0].split("_")[1]`
(timeseries.py:385): the period token embedded in an artifact filename.
`none` models the `IndexError` the source would raise on a stem with no
underscore; the theorems below only involve filenames that do embed a
token. -/
def candidate_month (filename : String) : Option String :=
  match splitOnChar '_' (stemChars filename.data) with
  | _ :: tok :: _ => some (String.mk tok)
  | _ => none

/-- Whether a filename matches the discovery glob `stars*.ecsv`
(timeseries.py:382): it starts with `stars`, ends with `.ecsv`, and is long
enough for the two patterns not to overlap — for filenames (no path
separator) this is exactly the glob's meaning. -/
def matches_stars_glob (s : String) : Bool :=
  "stars".data.isPrefixOf s.data && ".ecsv".data.isSuffixOf s.data && decide (10 ≤ s.length)

/-- Lexicographic comparison of character lists by code point: the order in
which Python's `sorted` ranks the glob results (strings compare by code
point). -/
def lexLeChars : List Char → List Char → Bool
  | [], _ => true
  | _ :: _, [] => false
  | a :: as, b :: bs =>
    if a.toNat < b.toNat then true
    else if b.toNat < a.toNat then false
    else lexLeChars as bs

/-- Python string comparison (`sorted`'s order): lexicographic by code
point. -/
def strLe (a b : String) : Bool :=
  lexLeChars a.data b.data

/-- The candidate selection of `to_ecsv_combine` (timeseries.py:382-387):
the files matching the glob, in sorted filename order, restricted to those
whose embedded period token is one of the months of the range. -/
def combine_candidates {Row : Type} (months : List String)
    (files : List (String × Table Row)) : List (String × Table Row) :=
  ((files.filter (fun c => matches_stars_glob c.1)).insertionSort
      (fun a b => strLe a.1 b.1 = true)).filter
    (fun c => match candidate_month c.1 with
      | some tok => months.contains tok
      | none => false)

/-- The default output filename
`f"{name}_{since.strftime('%Y%m')}-{until.strftime('%Y%m')}.ecsv"`
(timeseries.py:398-402). -/
def default_combined_name (name : String) (since untilm : Nat) : String :=
  name ++ "_" ++ monthStrCompact since ++ "-" ++ monthStrCompact untilm ++ ".ecsv"

/-- The loop body of `to_ecsv_combine` (timeseries.py:393-396):
`acc_table = append_table(acc_table, table)` followed by
`acc_table.meta["combined"].append(os.path.basename(in_path))`. -/
def combine_step {Row : Type} (acc : Table Row) (c : String × Table Row) : Table Row :=
  let acc1 := append_table acc c.2
  { acc1 with combined := acc1.combined.map (fun l => l ++ [c.1]) }

/-- Observable outcome of a `to_ecsv_combine` call. -/
inductive CombineResult (Row : Type) where
  /-- `month_range` returned no months (`since > until`), so the log call at
  timeseries.py:375-381 raises `IndexError` on `months[0]`. -/
  | indexError
  /-- No candidate artifact: warn and return with no write
  (timeseries.py:388-390). -/
  | noTables
  /-- The combined table was written under the given filename
  (timeseries.py:397-407). -/
  | written (filename : String) (t : Table Row)
  deriving DecidableEq, Repr

/-- Model of `to_ecsv_combine` (timeseries.py:370-407): enumerate the months of the
range, select the candidate artifacts, and either warn-and-return (none
found) or load the first as the accumulator, overwrite its `combined`
metadata with its own basename, then `append_table` each later candidate and
append that candidate's basename to the merged `combined` list, finally
writing under `oname` or the default name. -/
def to_ecsv_combine {Row : Type} (name : String) (since untilm : Nat)
    (oname : Option String) (files : List (String × Table Row)) : CombineResult Row :=
  let months := month_range since untilm
  if months.isEmpty then .indexError
  else
    match combine_candidates months files with
    | [] => .noTables
    | c0 :: rest =>
      let acc0 : Table Row := { rows := c0.2.rows, combined := some [c0.1] }
      let acc := rest.foldl combine_step acc0
      let filename :=
        match oname with
        | none => default_combined_name name since untilm
        | some o => o
      .written filename acc

/-! ## Geographic proximity filter

`src/src/tess/ida/download.py:62-95` and 170-180.  The floating-point
arithmetic of the source is idealised over the real numbers; `round(x, 0)`
is rounding to the nearest whole meter (modelled with `round`). -/

/-- Model of `math.radians`. -/
noncomputable def radians (x : ℝ) : ℝ :=
  x * Real.pi / 180

/-- The Earth radius constant of `distance` (download.py:70). -/
noncomputable def EARTH_RADIUS : ℝ := 6371009

/-- Model of `distance` (download.py:62-88): the planar small-angle approximate
distance in meters between two (longitude, latitude) points, rounded to the
nearest whole meter. -/
noncomputable def distance (A B : ℝ × ℝ) : ℤ :=
  round (EARTH_RADIUS *
    Real.sqrt ((radians (A.2 - B.2)) ^ 2 +
      (Real.cos (radians ((A.2 + B.2) / 2)) * radians (A.1 - B.1)) ^ 2))

/-- One row of the geographic directory listing (name, longitude, latitude),
coordinates already converted by `float_coords` (download.py:98-104). -/
structure GeoItem where
  name : String
  longitude : ℝ
  latitude : ℝ

/-- Model of `filter_by_distance` (download.py:91-95): keep the entity when the
rounded distance between its coordinates and the query point is at most
`radius` (which the caller supplies in meters). -/
def filter_by_distance (longitude latitude radius : ℝ) (item : GeoItem) : Prop :=
  ((distance (item.longitude, item.latitude) (longitude, latitude) : ℤ) : ℝ) ≤ radius

/-- The per-entity predicate of `ida_names_by_location` (download.py:178):
`functools.partial(filter_by_distance, lon, lat, 1000 * radius)` with
`radius` in kilometers. -/
def ida_names_by_location_keeps (lon lat radius : ℝ) (item : GeoItem) : Prop :=
  filter_by_distance lon lat (1000 * radius) item

/-! ## Helper lemmas on the hash cache -/

/-- A lookup that misses `cache` finds a freshly inserted row. -/
theorem lookup_insert_of_none (fn d : String) (cache : HashCache)
    (h : aux_table_hashes_lookup fn cache = none) :
    aux_table_hashes_lookup fn (aux_table_hashes_insert (fn, d) cache) = some (fn, d) := by
  unfold aux_table_hashes_lookup aux_table_hashes_insert at *
  rw [List.find?_append, h]
  simp

/-- After an update of `fn`'s hash, a lookup of `fn` that used to succeed
returns the new hash. -/
theorem lookup_update_of_some (fn d : String) (cache : HashCache)
    (h : (aux_table_hashes_lookup fn cache).isSome) :
    aux_table_hashes_lookup fn (aux_table_hashes_update (fn, d) cache) = some (fn, d) := by
  induction cache with
  | nil => simp [aux_table_hashes_lookup] at h
  | cons r rest ih =>
    by_cases hr : r.1 = fn
    · simp [aux_table_hashes_lookup, aux_table_hashes_update, List.find?, hr]
    · have hr' : (r.1 == fn) = false := by simp [hr]
      have h' : (aux_table_hashes_lookup fn rest).isSome := by
        simpa [aux_table_hashes_lookup, List.find?, hr'] using h
      simpa [aux_table_hashes_lookup, aux_table_hashes_update, List.find?, hr', hr]
        using ih h'

/-- Updating never changes the number of cache rows. -/
theorem length_update (data : String × String) (cache : HashCache) :
    (aux_table_hashes_update data cache).length = cache.length := by
  simp [aux_table_hashes_update]

/-- C1: with the auxiliary store configured, `do_to_ecsv_single` follows the
decision table on (cached digest, current digest, output existence): a cache
miss inserts (filename, digest) and transforms-and-writes; a hit with equal
digest and present output skips with no write; a hit with equal digest but
absent output transforms-and-writes; a hit with a differing digest leaves the
cache mapping at the new digest and transforms-and-writes.  Consequently a
second call on an unchanged raw file is a no-op skip (one write and one
insert across both calls), and mutating the raw file's bytes between two
calls (for an injective digest, the hasher's idealisation) re-transforms with
a cache update — never a duplicate insert, never a silent skip. -/
theorem C1_transform_decision_table {Content Table TErr : Type}
    (hashF : Content → String) (transform : Content → Except TErr Table)
    (fn : String) (c : Content) (outExists : Bool) (cache : HashCache) :
    (aux_table_hashes_lookup fn cache = none →
      (do_to_ecsv_single hashF transform fn c outExists cache).cache
          = aux_table_hashes_insert (fn, hashF c) cache ∧
      ∀ t, transform c = .ok t →
        (do_to_ecsv_single hashF transform fn c outExists cache).written = some t) ∧
    (∀ fn', aux_table_hashes_lookup fn cache = some (fn', hashF c) → outExists = true →
      do_to_ecsv_single hashF transform fn c outExists cache = ⟨cache, none, none⟩) ∧
    (∀ fn', aux_table_hashes_lookup fn cache = some (fn', hashF c) → outExists = false →
      (do_to_ecsv_single hashF transform fn c outExists cache).cache
          = aux_table_hashes_update (fn, hashF c) cache ∧
      ∀ t, transform c = .ok t →
        (do_to_ecsv_single hashF transform fn c outExists cache).written = some t) ∧
    (∀ fn' stored, aux_table_hashes_lookup fn cache = some (fn', stored) →
      stored ≠ hashF c →
      (aux_table_hashes_lookup fn
          (do_to_ecsv_single hashF transform fn c outExists cache).cache)
          = some (fn, hashF c) ∧
      ∀ t, transform c = .ok t →
        (do_to_ecsv_single hashF transform fn c outExists cache).written = some t) ∧
    (aux_table_hashes_lookup fn cache = none → ∀ t, transform c = .ok t →
      (do_to_ecsv_single hashF transform fn c outExists cache).written = some t ∧
      (do_to_ecsv_single hashF transform fn c outExists cache).cache
          = cache ++ [(fn, hashF c)] ∧
      do_to_ecsv_single hashF transform fn c true (cache ++ [(fn, hashF c)])
          = ⟨cache ++ [(fn, hashF c)], none, none⟩) ∧
    (Function.Injective hashF → ∀ c', c' ≠ c →
      ∀ fn', aux_table_hashes_lookup fn cache = some (fn', hashF c) →
        (aux_table_hashes_lookup fn
            (do_to_ecsv_single hashF transform fn c' outExists cache).cache)
            = some (fn, hashF c') ∧
        (do_to_ecsv_single hashF transform fn c' outExists cache).cache.length
            = cache.length ∧
        (∀ t, transform c' = .ok t →
          (do_to_ecsv_single hashF transform fn c' outExists cache).written = some t) ∧
        ¬ ((do_to_ecsv_single hashF transform fn c' outExists cache).written = none ∧
           (do_to_ecsv_single hashF transform fn c' outExists cache).err = none)) := by
  refine ⟨?_, ?_, ?_, ?_, ?_, ?_⟩
  · intro hmiss
    constructor
    · cases htr : transform c <;>
        simp [do_to_ecsv_single, hmiss, htr, aux_table_hashes_insert]
    · intro t htr
      simp [do_to_ecsv_single, hmiss, htr]
  · intro fn' hhit hout
    have : ¬ (hashF c ≠ hashF c ∨ outExists = false) := by simp [hout]
    simp [do_to_ecsv_single, hhit, hout]
  · intro fn' hhit hout
    constructor
    · cases htr : transform c <;> simp [do_to_ecsv_single, hhit, hout, htr]
    · intro t htr
      simp [do_to_ecsv_single, hhit, hout, htr]
  · intro fn' stored hhit hne
    have hsome : (aux_table_hashes_lookup fn cache).isSome := by simp [hhit]
    have hcache : (do_to_ecsv_single hashF transform fn c outExists cache).cache
        = aux_table_hashes_update (fn, hashF c) cache := by
      cases htr : transform c <;>
        simp [do_to_ecsv_single, hhit, htr, Ne.symm hne]
    refine ⟨?_, ?_⟩
    · rw [hcache]
      exact lookup_update_of_some fn (hashF c) cache hsome
    · intro t htr
      simp [do_to_ecsv_single, hhit, htr, Ne.symm hne]
  · intro hmiss t htr
    refine ⟨?_, ?_, ?_⟩
    · simp [do_to_ecsv_single, hmiss, htr]
    · simp [do_to_ecsv_single, hmiss, htr, aux_table_hashes_insert]
    · have hhit : aux_table_hashes_lookup fn (cache ++ [(fn, hashF c)])
          = some (fn, hashF c) := lookup_insert_of_none fn (hashF c) cache hmiss
      simp [do_to_ecsv_single, hhit]
  · intro hinj c' hne fn' hhit
    have hdig : hashF c' ≠ hashF c := fun h => hne (hinj h)
    have hsome : (aux_table_hashes_lookup fn cache).isSome := by simp [hhit]
    have hcache : (do_to_ecsv_single hashF transform fn c' outExists cache).cache
        = aux_table_hashes_update (fn, hashF c') cache := by
      cases htr : transform c' <;>
        simp [do_to_ecsv_single, hhit, htr, hdig]
    refine ⟨?_, ?_, ?_, ?_⟩
    · rw [hcache]
      exact lookup_update_of_some fn (hashF c') cache hsome
    · rw [hcache]
      exact length_update _ cache
    · intro t htr
      simp [do_to_ecsv_single, hhit, htr, hdig]
    · cases htr : transform c' <;>
        simp [do_to_ecsv_single, hhit, htr, hdig]

/-- C1 witness: a two-call run on the file `f.dat` with content `0` (digest
`"a"`) writes once and inserts once, the second call is a no-op skip, and a
call after mutating the content to `1` (digest `"b"`) updates the cache row
in place and re-writes. -/
theorem C1_transform_decision_table_witness :
    (do_to_ecsv_single (fun n : Fin 2 => if n = 0 then "a" else "b")
        (fun _ => (Except.ok () : Except Unit Unit)) "f.dat" 0 false []).written = some () ∧
    do_to_ecsv_single (fun n : Fin 2 => if n = 0 then "a" else "b")
        (fun _ => (Except.ok () : Except Unit Unit)) "f.dat" 0 true [("f.dat", "a")]
        = ⟨[("f.dat", "a")], none, none⟩ ∧
    aux_table_hashes_lookup "f.dat"
        (do_to_ecsv_single (fun n : Fin 2 => if n = 0 then "a" else "b")
          (fun _ => (Except.ok () : Except Unit Unit)) "f.dat" 1 true [("f.dat", "a")]).cache
        = some ("f.dat", "b") := by
  have h0 := C1_transform_decision_table (fun n : Fin 2 => if n = 0 then "a" else "b")
    (fun _ => (Except.ok () : Except Unit Unit)) "f.dat" (0 : Fin 2) false []
  have h1 := C1_transform_decision_table (fun n : Fin 2 => if n = 0 then "a" else "b")
    (fun _ => (Except.ok () : Except Unit Unit)) "f.dat" (0 : Fin 2) true [("f.dat", "a")]
  refine ⟨(h0.1 rfl).2 () rfl, ?_, ?_⟩
  · simpa using h1.2.1 "f.dat" (by decide) rfl
  · have hinj : Function.Injective (fun n : Fin 2 => if n = 0 then "a" else "b") := by
      decide
    simpa using ((h1.2.2.2.2.2 hinj 1 (by decide) "f.dat" (by decide)).1)

/-- C2 counterexample: a `do_to_ecsv_single` call whose transform fails (the
transform function returns an error for every content) nevertheless changes
the filename-to-hash cache — starting from the empty cache, the failing call
writes no artifact yet ends with the row `("f.dat", "h")` inserted, refuting
"no cache entry is inserted ... unless the transform completes
successfully". -/
theorem C2_cache_on_failure_counterexample :
    (do_to_ecsv_single (fun _ : Nat => "h")
        (fun _ => (Except.error () : Except Unit Unit)) "f.dat" 0 false []).written
        = none ∧
    (do_to_ecsv_single (fun _ : Nat => "h")
        (fun _ => (Except.error () : Except Unit Unit)) "f.dat" 0 false []).err
        = some () ∧
    (do_to_ecsv_single (fun _ : Nat => "h")
        (fun _ => (Except.error () : Except Unit Unit)) "f.dat" 0 false []).cache
        = [("f.dat", "h")] := by
  decide

/-- C2 (amended): if the transform of a raw file fails, the call writes no
derived artifact and the error propagates; however, the cache mutation has
already happened, because `do_to_ecsv_single` calls
`aux_table_hashes_insert`/`aux_table_hashes_update` before `create_table`
(timeseries.py:317-319 and 325-327): on a cache miss the failing call still
inserts (filename, digest), and on a hit with a stale digest or a missing
output it still updates the row to the new digest.  (A later call on the
unchanged file is still not silently skipped, because the output file is
absent; that recovery is part of C1's decision table.) -/
theorem C2_cache_mutated_before_transform {Content Table TErr : Type}
    (hashF : Content → String) (transform : Content → Except TErr Table)
    (fn : String) (c : Content) (outExists : Bool) (cache : HashCache)
    (e : TErr) (hfail : transform c = .error e) :
    (aux_table_hashes_lookup fn cache = none →
      do_to_ecsv_single hashF transform fn c outExists cache
        = ⟨aux_table_hashes_insert (fn, hashF c) cache, none, some e⟩) ∧
    (∀ fn' stored, aux_table_hashes_lookup fn cache = some (fn', stored) →
      (hashF c ≠ stored ∨ outExists = false) →
      do_to_ecsv_single hashF transform fn c outExists cache
        = ⟨aux_table_hashes_update (fn, hashF c) cache, none, some e⟩) := by
  constructor
  · intro hmiss
    simp [do_to_ecsv_single, hmiss, hfail]
  · intro fn' stored hhit hcond
    simp [do_to_ecsv_single, hhit, hfail, hcond]

/-- C2 witness: the amended statement at the counterexample's input — the
failing call starting from the empty cache inserts the row and raises. -/
theorem C2_cache_mutated_before_transform_witness :
    do_to_ecsv_single (fun _ : Nat => "h")
        (fun _ => (Except.error () : Except Unit Unit)) "f.dat" 0 false []
      = ⟨[("f.dat", "h")], none, some ()⟩ := by
  simpa [aux_table_hashes_insert] using
    (C2_cache_mutated_before_transform (fun _ : Nat => "h")
      (fun _ => (Except.error () : Except Unit Unit)) "f.dat" 0 false [] () rfl).1 rfl

/-- A `do_to_ecsv_single` call whose transform raises writes no artifact
(`save_table` is only reached after `create_table` returns,
timeseries.py:318-319 and 326-327). -/
theorem written_none_of_transform_error {Content Table TErr : Type}
    (hashF : Content → String) (transform : Content → Except TErr Table)
    (fn : String) (c : Content) (outExists : Bool) (cache : HashCache)
    (e : TErr) (hfail : transform c = .error e) :
    (do_to_ecsv_single hashF transform fn c outExists cache).written = none := by
  unfold do_to_ecsv_single
  cases h : aux_table_hashes_lookup fn cache with
  | none => simp [hfail]
  | some r =>
    obtain ⟨fn', stored⟩ := r
    by_cases hc : hashF c ≠ stored ∨ outExists = false <;> simp [hfail, hc]

/-- C3 counterexample: the header position `"abc, 1.0, 2.0"` cannot be
resolved to a numeric triple, yet with fix mode disabled `ida_metadata` does
not raise `NoCoordinatesError`: only `TypeError` is caught
(timeseries.py:169), and `float("abc")` raises `ValueError`, which escapes
uncaught. -/
theorem C3_coordinate_fallback_counterexample :
    resolvePosition "abc, 1.0, 2.0" = .error .valueError ∧
    ida_metadata false [] "stars1" ⟨"abc, 1.0, 2.0", 1, 8⟩ = .error .valueError ∧
    MetaErr.valueError ≠ MetaErr.noCoordinates := by
  decide

/-- C3 (amended): for every raw file whose header Position fails to resolve
with the `TypeError` the code catches (a sentinel latitude or longitude
token such as "none"/"unknown"/empty): fix mode disabled raises
`NoCoordinatesError`; fix mode enabled with a record for the entity returns
a header whose position equals that record's (latitude, longitude, height)
triple; fix mode enabled with no record (including the unconfigured store,
which behaves as the empty table) raises `NoCoordinatesError`.  In every
error case no derived artifact is written.  (A position that is unresolvable
because of a non-numeric, non-sentinel token instead raises an uncaught
`ValueError` — see the counterexample.) -/
theorem C3_coordinate_fallback (fix : Bool) (coords : CoordsTable) (name : String)
    (hdr : HeaderIn) (hunres : resolvePosition hdr.position = .error .typeError) :
    (fix = false → ida_metadata fix coords name hdr = .error .noCoordinates) ∧
    (fix = true → aux_table_coords_lookup name coords = none →
      ida_metadata fix coords name hdr = .error .noCoordinates) ∧
    (fix = true → ∀ n la lo h, aux_table_coords_lookup name coords = some (n, la, lo, h) →
      ∀ out, ida_metadata fix coords name hdr = .ok out → out.position = (la, lo, h)) ∧
    (∀ (Content Table : Type) (hashF : Content → String)
      (transform : Content → Except MetaErr Table) (c : Content) (fn : String)
      (outExists : Bool) (cache : HashCache),
      transform c = .error .noCoordinates →
      (do_to_ecsv_single hashF transform fn c outExists cache).written = none) := by
  refine ⟨?_, ?_, ?_, ?_⟩
  · intro hfix
    simp [ida_metadata, ida_position, hunres, hfix]
  · intro hfix hnone
    simp [ida_metadata, ida_position, hunres, hfix, hnone]
  · intro hfix n la lo h hlook out hok
    cases hvar : ida_variant_check hdr.numChannels hdr.numCols with
    | ok v =>
      have hmeta : ida_metadata fix coords name hdr
          = .ok ⟨(la, lo, h), hdr.numChannels, hdr.numCols, v⟩ := by
        simp [ida_metadata, ida_position, hunres, hfix, hlook, hvar]
      rw [hmeta] at hok
      injection hok with h2
      rw [← h2]
    | error e =>
      have hmeta : ida_metadata fix coords name hdr = .error e := by
        simp [ida_metadata, ida_position, hunres, hfix, hlook, hvar]
      rw [hmeta] at hok
      simp at hok
  · intro Content Table hashF transform c fn outExists cache hfail
    exact written_none_of_transform_error hashF transform fn c outExists cache _ hfail

/-- C3 witness: the amended statement at the sentinel position
`"None, None,"`: fix disabled and fix-with-empty-table raise
`NoCoordinatesError`, fix with the record `("stars1", 41, -4, 20)` returns
that triple as the position, and a transform failing with
`NoCoordinatesError` writes nothing. -/
theorem C3_coordinate_fallback_witness :
    ida_metadata false [] "stars1" ⟨"None, None,", 1, 8⟩ = .error .noCoordinates ∧
    ida_metadata true [] "stars1" ⟨"None, None,", 1, 8⟩ = .error .noCoordinates ∧
    (⟨((41 : ℚ), (-4 : ℚ), (20 : ℚ)), 1, 8, .tessw⟩ : HeaderOut).position
      = ((41 : ℚ), (-4 : ℚ), (20 : ℚ)) ∧
    (do_to_ecsv_single (fun _ : Nat => "h")
        (fun _ => (Except.error MetaErr.noCoordinates : Except MetaErr Unit))
        "f.dat" 0 false []).written = none := by
  have hu : resolvePosition "None, None," = .error .typeError := by decide
  refine ⟨?_, ?_, ?_, ?_⟩
  · exact (C3_coordinate_fallback false [] "stars1" ⟨"None, None,", 1, 8⟩ hu).1 rfl
  · exact (C3_coordinate_fallback true [] "stars1" ⟨"None, None,", 1, 8⟩ hu).2.1 rfl rfl
  · exact (C3_coordinate_fallback true [("stars1", 41, -4, 20)] "stars1"
      ⟨"None, None,", 1, 8⟩ hu).2.2.1 rfl "stars1" 41 (-4) 20 (by decide)
      ⟨((41 : ℚ), (-4 : ℚ), (20 : ℚ)), 1, 8, .tessw⟩ (by decide)
  · exact (C3_coordinate_fallback true [] "stars1" ⟨"None, None,", 1, 8⟩ hu).2.2.2
      Nat Unit (fun _ => "h") (fun _ => Except.error MetaErr.noCoordinates) 0 "f.dat"
      false [] rfl

/-- The channel/column check succeeds exactly on the two valid
(channels, columns) combinations. -/
theorem variant_check_ok_iff (ch cols : Int) :
    (∃ v, ida_variant_check ch cols = .ok v) ↔
      ((ch = 1 ∧ cols = 8) ∨ (ch = 4 ∧ cols = 17)) := by
  unfold ida_variant_check
  split_ifs <;> simp_all

/-- The only failure the channel/column check produces is the
`AssertionError`. -/
theorem variant_check_error_eq (ch cols : Int) (e : MetaErr)
    (h : ida_variant_check ch cols = .error e) : e = .assertionError := by
  unfold ida_variant_check at h
  split_ifs at h <;> simp_all

/-- C9: `ida_metadata` returns normally only when (channel count = 1 and
column count = 8) or (channel count = 4 and column count = 17); the
channel/column check succeeds exactly on these combinations, and — once the
position block has succeeded — the `AssertionError` branch is reached
exactly when the header violates the invariant. -/
theorem C9_channel_column_invariant (fix : Bool) (coords : CoordsTable)
    (name : String) (hdr : HeaderIn) :
    (∀ out, ida_metadata fix coords name hdr = .ok out →
      (hdr.numChannels = 1 ∧ hdr.numCols = 8) ∨
        (hdr.numChannels = 4 ∧ hdr.numCols = 17)) ∧
    ((∃ v, ida_variant_check hdr.numChannels hdr.numCols = .ok v) ↔
      ((hdr.numChannels = 1 ∧ hdr.numCols = 8) ∨
        (hdr.numChannels = 4 ∧ hdr.numCols = 17))) ∧
    (∀ p, ida_position fix coords name hdr.position = .ok p →
      (ida_metadata fix coords name hdr = .error .assertionError ↔
        ¬ ((hdr.numChannels = 1 ∧ hdr.numCols = 8) ∨
          (hdr.numChannels = 4 ∧ hdr.numCols = 17)))) := by
  refine ⟨?_, variant_check_ok_iff _ _, ?_⟩
  · intro out hok
    cases hpos : ida_position fix coords name hdr.position with
    | error e => simp [ida_metadata, hpos] at hok
    | ok p =>
      cases hvc : ida_variant_check hdr.numChannels hdr.numCols with
      | error e => simp [ida_metadata, hpos, hvc] at hok
      | ok v => exact (variant_check_ok_iff _ _).mp ⟨v, hvc⟩
  · intro p hpos
    cases hvc : ida_variant_check hdr.numChannels hdr.numCols with
    | ok v =>
      have hinv := (variant_check_ok_iff hdr.numChannels hdr.numCols).mp ⟨v, hvc⟩
      simp [ida_metadata, hpos, hvc, hinv]
    | error e =>
      have he := variant_check_error_eq _ _ _ hvc
      subst he
      have hninv : ¬ ((hdr.numChannels = 1 ∧ hdr.numCols = 8) ∨
          (hdr.numChannels = 4 ∧ hdr.numCols = 17)) := by
        intro hinv
        obtain ⟨v, hv⟩ := (variant_check_ok_iff hdr.numChannels hdr.numCols).mpr hinv
        rw [hv] at hvc
        cases hvc
      simp [ida_metadata, hpos, hvc, hninv]

/-- C9 witness: the invariant concluded from a concrete successful parse
(channels 1, columns 8, position resolved through the fallback), and a
concrete `AssertionError` for channels 2, columns 9. -/
theorem C9_channel_column_invariant_witness :
    (((1 : Int) = 1 ∧ (8 : Int) = 8) ∨ ((1 : Int) = 4 ∧ (8 : Int) = 17)) ∧
    ida_metadata true [("s", 41, -4, 20)] "s" ⟨"None, None,", 2, 9⟩
      = .error .assertionError := by
  constructor
  · exact (C9_channel_column_invariant true [("s", 41, -4, 20)] "s"
      ⟨"None, None,", 1, 8⟩).1 ⟨((41 : ℚ), (-4 : ℚ), (20 : ℚ)), 1, 8, .tessw⟩ (by decide)
  · exact ((C9_channel_column_invariant true [("s", 41, -4, 20)] "s"
      ⟨"None, None,", 2, 9⟩).2.2 ((41 : ℚ), (-4 : ℚ), (20 : ℚ)) (by decide)).mpr (by decide)

/-! ## Properties of `group` (the batch partition) -/

/-- The batching function `group` yields nothing only for a zero batch size or an empty sequence. -/
theorem group_eq_nil_iff {α : Type} (n : Nat) (xs : List α) :
    group n xs = [] ↔ n = 0 ∨ xs = [] := by
  rw [group]
  by_cases h : n = 0 ∨ xs.isEmpty <;> simp_all [List.isEmpty_iff]

/-- Concatenating the batches of `group` restores the original sequence. -/
theorem group_flatten {α : Type} (n : Nat) (hn : n ≠ 0) (xs : List α) :
    (group n xs).flatten = xs := by
  refine group.induct n (fun x => (group n x).flatten = x) ?_ ?_ xs
  · intro x h
    have hx : x = [] := by
      rcases h with h | h
      · exact absurd h hn
      · exact List.isEmpty_iff.mp h
    subst hx
    rw [group]
    simp
  · intro x h ih
    rw [group, dif_neg h]
    simp only [List.flatten_cons, ih]
    exact List.take_append_drop n x

/-- The batching function `group` produces exactly ⌈length / n⌉ batches. -/
theorem group_length {α : Type} (n : Nat) (hn : n ≠ 0) (xs : List α) :
    (group n xs).length = (xs.length + n - 1) / n := by
  refine group.induct n (fun x => (group n x).length = (x.length + n - 1) / n) ?_ ?_ xs
  · intro x h
    have hx : x = [] := by
      rcases h with h | h
      · exact absurd h hn
      · exact List.isEmpty_iff.mp h
    subst hx
    rw [group]
    have h0 : (n - 1) / n = 0 := Nat.div_eq_of_lt (by omega)
    simp [h0]
  · intro x h ih
    rw [not_or] at h
    have hx : x ≠ [] := fun hx => h.2 (by simp [hx])
    have hL : 0 < x.length := List.length_pos.mpr hx
    have hn0 : 0 < n := Nat.pos_of_ne_zero h.1
    rw [group, dif_neg (not_or.mpr h)]
    simp only [List.length_cons, ih, List.length_drop]
    rcases Nat.lt_or_ge n x.length with hlt | hge
    · have h1 : x.length - n + n - 1 = x.length - 1 := by omega
      have h2 : x.length + n - 1 = (x.length - 1) + n := by omega
      rw [h1, h2, Nat.add_div_right _ hn0]
    · have h1 : x.length - n = 0 := by omega
      have h2 : (0 + n - 1) / n = 0 := Nat.div_eq_of_lt (by omega)
      rw [h1, h2]
      have h3 : (x.length + n - 1) / n = 1 :=
        Nat.div_eq_of_lt_le (by omega) (by omega)
      omega

/-- Every batch `group` produces has at most `n` elements. -/
theorem group_mem_length_le {α : Type} (n : Nat) (xs : List α) :
    ∀ w ∈ group n xs, w.length ≤ n := by
  refine group.induct n (fun x => ∀ w ∈ group n x, w.length ≤ n) ?_ ?_ xs
  · intro x h
    rw [group, dif_pos h]
    intro w hw
    cases hw
  · intro x h ih
    rw [group, dif_neg h]
    intro w hw
    rcases List.mem_cons.mp hw with rfl | hw
    · exact List.length_take_le n x
    · exact ih w hw

/-- Every batch except possibly the last has exactly `n` elements. -/
theorem group_getElem_length {α : Type} (n : Nat) (hn : n ≠ 0) (xs : List α) :
    ∀ (i : Nat) (w : List α), (group n xs)[i]? = some w →
      i + 1 < (group n xs).length → w.length = n := by
  refine group.induct n
    (fun x => ∀ (i : Nat) (w : List α), (group n x)[i]? = some w →
      i + 1 < (group n x).length → w.length = n) ?_ ?_ xs
  · intro x h i w hw _
    rw [group, dif_pos h] at hw
    simp at hw
  · intro x h ih i w hw hi
    rw [group, dif_neg h] at hw hi
    cases i with
    | zero =>
      simp only [List.getElem?_cons_zero, Option.some.injEq] at hw
      have hrest : group n (x.drop n) ≠ [] := by
        intro hnil
        simp [hnil] at hi
      have hdrop : x.drop n ≠ [] := by
        intro hnil
        exact hrest ((group_eq_nil_iff n (x.drop n)).mpr (Or.inr hnil))
      have hlen : n < x.length := by
        have := List.length_pos.mpr hdrop
        simp only [List.length_drop] at this
        omega
      rw [← hw]
      simp [List.length_take]
      omega
    | succ j =>
      simp only [List.getElem?_cons_succ] at hw
      simp only [List.length_cons] at hi
      exact ih j w hw (by omega)

/-- C5: for a month sequence of length N ≥ 1 and a batch size B ≥ 1, the
range fetch partitions the sequence into exactly ⌈N/B⌉ consecutive waves
whose concatenation is the original sequence in order; every wave has at
most B fetches and every wave except possibly the last has exactly B.  The
waves run strictly one after another with each wave's fetches issued
together: `do_ida_range_waves` is the ordered list of waves the `for` loop
of `do_ida_range` awaits one `asyncio.gather` at a time. -/
theorem C5_batch_partition (B since untilm : Nat) (hB : 1 ≤ B)
    (hN : 1 ≤ (month_range since untilm).length) :
    (do_ida_range_waves B since untilm).length
        = ((month_range since untilm).length + B - 1) / B ∧
    (do_ida_range_waves B since untilm).flatten = month_range since untilm ∧
    (∀ w ∈ do_ida_range_waves B since untilm, w.length ≤ B) ∧
    (∀ (i : Nat) (w : List String), (do_ida_range_waves B since untilm)[i]? = some w →
      i + 1 < (do_ida_range_waves B since untilm).length → w.length = B) := by
  have hB0 : B ≠ 0 := by omega
  exact ⟨group_length B hB0 _, group_flatten B hB0 _,
    group_mem_length_le B _, group_getElem_length B hB0 _⟩

/-- C5 witness: five months (2023-06 .. 2023-10) with batch size 2 give
⌈5/2⌉ = 3 waves, flattening back to the month list, the first wave holding
exactly 2 fetches. -/
theorem C5_batch_partition_witness :
    1 ≤ (2 : Nat) ∧
    1 ≤ (month_range (2023 * 12 + 5) (2023 * 12 + 9)).length ∧
    (do_ida_range_waves 2 (2023 * 12 + 5) (2023 * 12 + 9)).length = 3 ∧
    (do_ida_range_waves 2 (2023 * 12 + 5) (2023 * 12 + 9)).flatten
      = month_range (2023 * 12 + 5) (2023 * 12 + 9) := by
  have h := C5_batch_partition 2 (2023 * 12 + 5) (2023 * 12 + 9) (by decide) (by decide)
  refine ⟨by decide, by decide, ?_, h.2.1⟩
  rw [h.1]
  decide

/-- C6: a fetch that receives a 404 returns without raising and with no side
effect — nothing written and no per-entity directory created — and inside a
batch every member's outcome is a function of its own response only, so the
404 member never prevents the other members from completing their own
fetches. -/
theorem C6_soft_skip_non_propagation (resps : List Resp) (i : Nat)
    (h : resps[i]? = some .notFound) :
    do_ida_single .notFound = ⟨none, false, false⟩ ∧
    (ida_batch resps)[i]? = some ⟨none, false, false⟩ ∧
    (∀ j : Nat, (ida_batch resps)[j]? = (resps[j]?).map do_ida_single) := by
  refine ⟨rfl, ?_, ?_⟩
  · simp [ida_batch, h, do_ida_single]
  · intro j
    simp [ida_batch]

/-- C6 witness: in the batch [success, 404, success] the 404 member skips
while both siblings complete their writes. -/
theorem C6_soft_skip_non_propagation_witness :
    (ida_batch [.success "a", .notFound, .success "b"])[1]?
      = some ⟨none, false, false⟩ ∧
    (ida_batch [.success "a", .notFound, .success "b"])[0]?
      = some ⟨some "a", true, false⟩ ∧
    (ida_batch [.success "a", .notFound, .success "b"])[2]?
      = some ⟨some "b", true, false⟩ := by
  have h := C6_soft_skip_non_propagation [.success "a", .notFound, .success "b"] 1 rfl
  refine ⟨h.2.1, ?_, ?_⟩
  · rw [h.2.2 0]
    rfl
  · rw [h.2.2 2]
    rfl

/-! ## Properties of the combiner -/

/-- The code-point order is total. -/
theorem lexLeChars_total : ∀ xs ys : List Char,
    lexLeChars xs ys = true ∨ lexLeChars ys xs = true := by
  intro xs
  induction xs with
  | nil => intro ys; left; rfl
  | cons a as ih =>
    intro ys
    cases ys with
    | nil => right; rfl
    | cons b bs =>
      by_cases h1 : a.toNat < b.toNat
      · left; simp [lexLeChars, h1]
      · by_cases h2 : b.toNat < a.toNat
        · right; simp [lexLeChars, h2]
        · rcases ih bs with h | h
          · left; simp [lexLeChars, h1, h2, h]
          · right; simp [lexLeChars, h1, h2, h]

/-- The code-point order is transitive. -/
theorem lexLeChars_trans : ∀ xs ys zs : List Char,
    lexLeChars xs ys = true → lexLeChars ys zs = true →
      lexLeChars xs zs = true := by
  intro xs
  induction xs with
  | nil => intro ys zs _ _; rfl
  | cons a as ih =>
    intro ys zs h1 h2
    cases ys with
    | nil => simp [lexLeChars] at h1
    | cons b bs =>
      cases zs with
      | nil => simp [lexLeChars] at h2
      | cons c cs =>
        simp only [lexLeChars] at h1 h2 ⊢
        rcases Nat.lt_trichotomy a.toNat b.toNat with hab | hab | hab
        · rcases Nat.lt_trichotomy b.toNat c.toNat with hbc | hbc | hbc
          · simp [show a.toNat < c.toNat by omega]
          · simp [show a.toNat < c.toNat by omega]
          · simp [show ¬ b.toNat < c.toNat by omega, hbc] at h2
        · rcases Nat.lt_trichotomy b.toNat c.toNat with hbc | hbc | hbc
          · simp [show a.toNat < c.toNat by omega]
          · have hac1 : ¬ a.toNat < c.toNat := by omega
            have hac2 : ¬ c.toNat < a.toNat := by omega
            simp only [hac1, if_false, hac2]
            simp only [show ¬ a.toNat < b.toNat by omega, if_false,
              show ¬ b.toNat < a.toNat by omega] at h1
            simp only [show ¬ b.toNat < c.toNat by omega, if_false,
              show ¬ c.toNat < b.toNat by omega] at h2
            simpa using ih bs cs (by simpa using h1) (by simpa using h2)
          · simp [show ¬ b.toNat < c.toNat by omega, hbc] at h2
        · simp [show ¬ a.toNat < b.toNat by omega, hab] at h1

instance {Row : Type} :
    IsTotal (String × Table Row) (fun a b => strLe a.1 b.1 = true) :=
  ⟨fun a b => lexLeChars_total a.1.data b.1.data⟩

instance {Row : Type} :
    IsTrans (String × Table Row) (fun a b => strLe a.1 b.1 = true) :=
  ⟨fun _ _ _ hab hbc => lexLeChars_trans _ _ _ hab hbc⟩

/-- The list `month_range` returns has one string per month of the inclusive range. -/
theorem month_range_length (a b : Nat) :
    (month_range a b).length = b + 1 - a := by
  simp [month_range]

/-- The accumulation loop: starting from an accumulator whose `combined` list
is `l`, folding `combine_step` over constituents that carry no `combined`
metadata concatenates all rows in order and appends each constituent's name
in order. -/
theorem combine_step_foldl {Row : Type} (rest : List (String × Table Row)) :
    ∀ (acc : Table Row) (l : List String), acc.combined = some l →
      (∀ c ∈ rest, c.2.combined = none) →
      (rest.foldl combine_step acc).rows
          = acc.rows ++ (rest.map (fun c => c.2.rows)).flatten ∧
      (rest.foldl combine_step acc).combined = some (l ++ rest.map Prod.fst) := by
  induction rest with
  | nil => intro acc l hacc _; simp [hacc]
  | cons c cs ih =>
    intro acc l hacc hnone
    have hc : c.2.combined = none := hnone c (List.mem_cons_self c cs)
    have hstep : combine_step acc c
        = { rows := acc.rows ++ c.2.rows, combined := some (l ++ [c.1]) } := by
      simp [combine_step, append_table, hacc, hc]
    have hrec := ih (combine_step acc c) (l ++ [c.1]) (by rw [hstep])
      (fun d hd => hnone d (List.mem_cons_of_mem c hd))
    rw [List.foldl_cons]
    refine ⟨?_, ?_⟩
    · rw [hrec.1, hstep]
      simp
    · rw [hrec.2]
      simp

/-- Every candidate the combiner selects comes from the directory listing,
matches the glob, and has its period token among the months of the range;
and the candidate list is in ascending filename order. -/
theorem combine_candidates_spec {Row : Type} (months : List String)
    (files : List (String × Table Row)) :
    (∀ c, c ∈ combine_candidates months files ↔
      (c ∈ files ∧ matches_stars_glob c.1 = true ∧
        ∃ tok, candidate_month c.1 = some tok ∧ tok ∈ months)) ∧
    List.Sorted (fun a b => strLe a b = true)
      ((combine_candidates months files).map Prod.fst) := by
  constructor
  · intro c
    unfold combine_candidates
    rw [List.mem_filter]
    rw [(List.perm_insertionSort _ _).mem_iff]
    rw [List.mem_filter]
    constructor
    · rintro ⟨⟨hmem, hglob⟩, hmonth⟩
      refine ⟨hmem, hglob, ?_⟩
      cases htok : candidate_month c.1 with
      | none => rw [htok] at hmonth; cases hmonth
      | some tok =>
        rw [htok] at hmonth
        exact ⟨tok, rfl, by simpa using hmonth⟩
    · rintro ⟨hmem, hglob, tok, htok, hin⟩
      refine ⟨⟨hmem, hglob⟩, ?_⟩
      rw [htok]
      simpa using hin
  · have hs : List.Sorted (fun a b : String × Table Row => strLe a.1 b.1 = true)
        (List.insertionSort (fun a b => strLe a.1 b.1 = true)
          (files.filter (fun c => matches_stars_glob c.1))) :=
      List.sorted_insertionSort _ _
    have hf : List.Sorted (fun a b : String × Table Row => strLe a.1 b.1 = true)
        (combine_candidates months files) := List.Pairwise.filter _ hs
    exact List.Pairwise.map Prod.fst (fun a b hab => hab) hf

/-- C7: combining a month range `since ≤ until` over a directory in which no
artifact's embedded period token falls inside the range warns and performs
no write (`noTables`), raising no exception. -/
theorem C7_combine_empty_range {Row : Type} (name : String) (since untilm : Nat)
    (oname : Option String) (files : List (String × Table Row))
    (hsince : since ≤ untilm)
    (habsent : ∀ c ∈ files, ∀ tok, candidate_month c.1 = some tok →
      tok ∉ month_range since untilm) :
    to_ecsv_combine name since untilm oname files = .noTables := by
  have hmonths : (month_range since untilm).isEmpty = false := by
    rw [List.isEmpty_eq_false_iff_exists_mem]
    have : (month_range since untilm).length ≠ 0 := by
      rw [month_range_length]; omega
    exact List.exists_mem_of_length_pos (by omega)
  have hcand : combine_candidates (month_range since untilm) files = [] := by
    rcases hc : combine_candidates (month_range since untilm) files with _ | ⟨c, cs⟩
    · rfl
    · exfalso
      have hmem : c ∈ combine_candidates (month_range since untilm) files := by
        rw [hc]; exact List.mem_cons_self c cs
      obtain ⟨hfile, _, tok, htok, hin⟩ :=
        ((combine_candidates_spec (month_range since untilm) files).1 c).mp hmem
      exact habsent c hfile tok htok hin
  simp [to_ecsv_combine, hmonths, hcand]

/-- C7 witness: the range 2023-06..2023-06 over a directory holding only the
2023-01 artifact warns and writes nothing. -/
theorem C7_combine_empty_range_witness :
    to_ecsv_combine "stars1" (2023 * 12 + 5) (2023 * 12 + 5) none
        [("stars1_2023-01.ecsv", (⟨[1, 2], none⟩ : Table Nat))] = .noTables := by
  refine C7_combine_empty_range "stars1" (2023 * 12 + 5) (2023 * 12 + 5) none
    [("stars1_2023-01.ecsv", (⟨[1, 2], none⟩ : Table Nat))] (by omega) ?_
  decide

/-- C8: combining a range `since ≤ until` with at least one constituent
writes a table whose rows are the concatenation of the candidates' rows in
ascending (sorted-filename, hence ascending-period) order, whose `combined`
metadata is exactly the candidates' base filenames in that same order, and
whose filename is `oname` when supplied and the default
`name_YYYYMM-YYYYMM.ecsv` otherwise. -/
theorem C8_combine_order_and_provenance {Row : Type} (name : String)
    (since untilm : Nat) (oname : Option String)
    (files : List (String × Table Row)) (hsince : since ≤ untilm)
    (hne : combine_candidates (month_range since untilm) files ≠ [])
    (hnone : ∀ c ∈ combine_candidates (month_range since untilm) files,
      c.2.combined = none) :
    to_ecsv_combine name since untilm oname files
      = .written (oname.getD (default_combined_name name since untilm))
          ⟨((combine_candidates (month_range since untilm) files).map
              (fun c => c.2.rows)).flatten,
            some ((combine_candidates (month_range since untilm) files).map
              Prod.fst)⟩ ∧
    List.Sorted (fun a b => strLe a b = true)
      ((combine_candidates (month_range since untilm) files).map Prod.fst) := by
  have hmonths : (month_range since untilm).isEmpty = false := by
    rw [List.isEmpty_eq_false_iff_exists_mem]
    have : (month_range since untilm).length ≠ 0 := by
      rw [month_range_length]; omega
    exact List.exists_mem_of_length_pos (by omega)
  refine ⟨?_, (combine_candidates_spec _ files).2⟩
  obtain ⟨c0, rest, hc⟩ : ∃ c0 rest,
      combine_candidates (month_range since untilm) files = c0 :: rest := by
    rcases h : combine_candidates (month_range since untilm) files with _ | ⟨a, b⟩
    · exact absurd h hne
    · exact ⟨a, b, rfl⟩
  have hnone' : ∀ d ∈ rest, d.2.combined = none := fun d hd =>
    hnone d (by rw [hc]; exact List.mem_cons_of_mem _ hd)
  have hfold := combine_step_foldl rest ⟨c0.2.rows, some [c0.1]⟩ [c0.1] rfl hnone'
  have htab : List.foldl combine_step
      (⟨c0.2.rows, some [c0.1]⟩ : Table Row) rest
      = ⟨c0.2.rows ++ (rest.map (fun c => c.2.rows)).flatten,
          some (c0.1 :: rest.map Prod.fst)⟩ := by
    calc List.foldl combine_step (⟨c0.2.rows, some [c0.1]⟩ : Table Row) rest
        = ⟨(List.foldl combine_step (⟨c0.2.rows, some [c0.1]⟩ : Table Row) rest).rows,
            (List.foldl combine_step
              (⟨c0.2.rows, some [c0.1]⟩ : Table Row) rest).combined⟩ := rfl
      _ = _ := by rw [hfold.1, hfold.2]; simp
  cases oname with
  | none =>
    simp [to_ecsv_combine, hmonths, hc, htab]
  | some o =>
    simp [to_ecsv_combine, hmonths, hc, htab]

/-- C8 witness: combining 2023-06..2023-07 over the two monthly artifacts
(listed out of order) writes, under the default name
`stars1_202306-202307.ecsv`, the June rows followed by the July rows with
`combined = [stars1_2023-06.ecsv, stars1_2023-07.ecsv]`. -/
theorem C8_combine_order_and_provenance_witness :
    to_ecsv_combine "stars1" (2023 * 12 + 5) (2023 * 12 + 6) none
        [("stars1_2023-07.ecsv", (⟨[7, 8], none⟩ : Table Nat)),
         ("stars1_2023-06.ecsv", (⟨[5, 6], none⟩ : Table Nat))]
      = .written "stars1_202306-202307.ecsv"
          ⟨[5, 6, 7, 8],
            some ["stars1_2023-06.ecsv", "stars1_2023-07.ecsv"]⟩ := by
  have h := C8_combine_order_and_provenance "stars1" (2023 * 12 + 5) (2023 * 12 + 6)
    none
    [("stars1_2023-07.ecsv", (⟨[7, 8], none⟩ : Table Nat)),
     ("stars1_2023-06.ecsv", (⟨[5, 6], none⟩ : Table Nat))]
    (by omega) (by decide) (by decide)
  have hcand : combine_candidates
      (month_range (2023 * 12 + 5) (2023 * 12 + 6))
      [("stars1_2023-07.ecsv", (⟨[7, 8], none⟩ : Table Nat)),
       ("stars1_2023-06.ecsv", (⟨[5, 6], none⟩ : Table Nat))]
      = [("stars1_2023-06.ecsv", (⟨[5, 6], none⟩ : Table Nat)),
         ("stars1_2023-07.ecsv", (⟨[7, 8], none⟩ : Table Nat))] := by
    decide
  rw [h.1, hcand]
  rfl

/-- C4: the proximity filter keeps an entity exactly when the rounded planar
small-angle distance in meters between the entity's coordinates and the
query point is at most `radius * 1000`; in particular an entity at distance
exactly `radius * 1000` meters is kept, and one at `radius * 1000 + 1`
meters is dropped. -/
theorem C4_distance_filter (lon lat radius : ℝ) (item : GeoItem) :
    (ida_names_by_location_keeps lon lat radius item ↔
      ((distance (item.longitude, item.latitude) (lon, lat) : ℤ) : ℝ)
        ≤ radius * 1000) ∧
    (((distance (item.longitude, item.latitude) (lon, lat) : ℤ) : ℝ)
        = radius * 1000 →
      ida_names_by_location_keeps lon lat radius item) ∧
    (((distance (item.longitude, item.latitude) (lon, lat) : ℤ) : ℝ)
        = radius * 1000 + 1 →
      ¬ ida_names_by_location_keeps lon lat radius item) := by
  unfold ida_names_by_location_keeps filter_by_distance
  refine ⟨?_, ?_, ?_⟩
  · constructor <;> intro h <;> linarith
  · intro h
    linarith
  · intro h hk
    linarith

/-- C4 witness: with radius 0 km, an entity at the query point itself
(rounded distance 0 m) is kept, and an entity whose latitude offset of
`180 / (EARTH_RADIUS * π)` degrees puts it at exactly 1 m is dropped. -/
theorem C4_distance_filter_witness :
    ida_names_by_location_keeps 0 0 0 ⟨"near", 0, 0⟩ ∧
    ¬ ida_names_by_location_keeps 0 0 0
        ⟨"far", 0, 180 / (EARTH_RADIUS * Real.pi)⟩ := by
  have hR : (0 : ℝ) < EARTH_RADIUS := by unfold EARTH_RADIUS; norm_num
  have hzero : distance ((0 : ℝ), (0 : ℝ)) ((0 : ℝ), (0 : ℝ)) = 0 := by
    show round (EARTH_RADIUS *
      Real.sqrt ((radians ((0 : ℝ) - 0)) ^ 2 +
        (Real.cos (radians (((0 : ℝ) + 0) / 2)) * radians ((0 : ℝ) - 0)) ^ 2)) = 0
    have h0 : radians ((0 : ℝ) - 0) = 0 := by simp [radians]
    rw [h0]
    simp
  have hone : distance ((0 : ℝ), 180 / (EARTH_RADIUS * Real.pi)) ((0 : ℝ), (0 : ℝ))
      = 1 := by
    show round (EARTH_RADIUS *
      Real.sqrt ((radians (180 / (EARTH_RADIUS * Real.pi) - 0)) ^ 2 +
        (Real.cos (radians ((180 / (EARTH_RADIUS * Real.pi) + 0) / 2)) *
          radians ((0 : ℝ) - 0)) ^ 2)) = 1
    have h0 : radians ((0 : ℝ) - 0) = 0 := by simp [radians]
    have hrad : radians (180 / (EARTH_RADIUS * Real.pi) - 0) = 1 / EARTH_RADIUS := by
      unfold radians
      rw [sub_zero]
      field_simp
      ring
    rw [h0, hrad, mul_zero]
    rw [show ((0 : ℝ)) ^ 2 = 0 by norm_num, add_zero]
    rw [Real.sqrt_sq (by positivity : (0 : ℝ) ≤ 1 / EARTH_RADIUS)]
    rw [mul_one_div, div_self (ne_of_gt hR)]
    simp
  constructor
  · refine (C4_distance_filter 0 0 0 ⟨"near", 0, 0⟩).2.1 ?_
    rw [hzero]
    norm_num
  · refine (C4_distance_filter 0 0 0 ⟨"far", 0, 180 / (EARTH_RADIUS * Real.pi)⟩).2.2 ?_
    rw [hone]
    norm_num

/-! ## Filename-shape lemmas for the combined-artifact feedback question -/

/-- Splitting on a separator that does not occur leaves one field. -/
theorem splitOnChar_of_not_mem {c : Char} {xs : List Char} (h : c ∉ xs) :
    splitOnChar c xs = [xs] := by
  induction xs with
  | nil => rfl
  | cons x rest ih =>
    have hx : x ≠ c := fun hx => h (hx ▸ List.mem_cons_self x rest)
    have hr : c ∉ rest := fun hr => h (List.mem_cons_of_mem x hr)
    rw [splitOnChar, if_neg hx, ih hr]

/-- Splitting at the first separator occurrence cuts off the clean prefix. -/
theorem splitOnChar_append {c : Char} {xs : List Char} (ys : List Char)
    (h : c ∉ xs) : splitOnChar c (xs ++ c :: ys) = xs :: splitOnChar c ys := by
  induction xs with
  | nil => simp [splitOnChar]
  | cons x rest ih =>
    have hx : x ≠ c := fun hx => h (hx ▸ List.mem_cons_self x rest)
    have hr : c ∉ rest := fun hr => h (List.mem_cons_of_mem x hr)
    rw [List.cons_append, splitOnChar, if_neg hx, ih hr]

/-- Applying `os.path.splitext` to a dot-free stem followed by `.ecsv` cuts the
extension. -/
theorem stemChars_append_ecsv (zs : List Char) (h : '.' ∉ zs) :
    stemChars (zs ++ ".ecsv".data) = zs := by
  unfold stemChars
  have hmem : '.' ∈ zs ++ ".ecsv".data :=
    List.mem_append_right zs (by decide)
  rw [if_pos hmem, List.reverse_append]
  have hrev : ".ecsv".data.reverse = ['v', 's', 'c', 'e', '.'] := rfl
  rw [hrev]
  have hdrop : (['v', 's', 'c', 'e', '.'] ++ zs.reverse).dropWhile
      (fun c => c ≠ '.') = '.' :: zs.reverse := by
    simp [List.dropWhile]
  rw [hdrop, List.drop_one, List.tail_cons, List.reverse_reverse]

/-- The digit characters `%Y%m` emits are never an underscore or a dot. -/
theorem digitChar_ne_special (k : Nat) (hk : k < 10) :
    Char.ofNat (48 + k) ≠ '.' ∧ Char.ofNat (48 + k) ≠ '_' := by
  interval_cases k <;> exact ⟨by decide, by decide⟩

/-- No character of the embedded `YYYYMM-YYYYMM` token is a dot or an
underscore. -/
theorem combined_token_chars (s u : Nat) :
    ∀ ch ∈ ((monthStrCompact s).data ++ '-' :: (monthStrCompact u).data),
      ch ≠ '.' ∧ ch ≠ '_' := by
  intro ch hch
  have hdigits : ∀ t : Nat, ∀ d ∈ (monthStrCompact t).data, d ≠ '.' ∧ d ≠ '_' := by
    intro t d hd
    have hmem : d = Char.ofNat (48 + t / 12 / 1000 % 10) ∨
        d = Char.ofNat (48 + t / 12 / 100 % 10) ∨
        d = Char.ofNat (48 + t / 12 / 10 % 10) ∨
        d = Char.ofNat (48 + t / 12 % 10) ∨
        d = Char.ofNat (48 + (t % 12 + 1) / 10 % 10) ∨
        d = Char.ofNat (48 + (t % 12 + 1) % 10) := by
      simpa [monthStrCompact, fmt4, fmt2] using hd
    rcases hmem with h | h | h | h | h | h <;>
      exact h ▸ digitChar_ne_special _ (Nat.mod_lt _ (by norm_num))
  rcases List.mem_append.mp hch with h | h
  · exact hdigits s ch h
  · rcases List.mem_cons.mp h with rfl | h
    · exact ⟨by decide, by decide⟩
    · exact hdigits u ch h

/-- Every string `month_range` yields has exactly 7 characters
(`YYYY-MM`). -/
theorem monthStr_length (t : Nat) : (monthStr t).length = 7 := by
  simp [monthStr, fmt4, fmt2, String.length_append]
  rfl

/-- The embedded token of a default combined name has 13 characters
(`YYYYMM-YYYYMM`). -/
theorem combined_token_length (s u : Nat) :
    (monthStrCompact s ++ "-" ++ monthStrCompact u).length = 13 := by
  simp [monthStrCompact, fmt4, fmt2, String.length_append]
  rfl

/-- The `YYYYMM-YYYYMM` token is never one of the `YYYY-MM` strings a
`month_range` yields. -/
theorem combined_token_not_in_month_range (s u a b : Nat) :
    (monthStrCompact s ++ "-" ++ monthStrCompact u) ∉ month_range a b := by
  intro hmem
  rw [month_range] at hmem
  obtain ⟨t, _, ht⟩ := List.mem_map.mp hmem
  have h7 := monthStr_length t
  rw [ht, combined_token_length] at h7
  cases h7

/-- The data of the default combined name, split at its underscore. -/
theorem default_combined_name_data (name : String) (s u : Nat) :
    (default_combined_name name s u).data
      = (name.data ++ '_' ::
          ((monthStrCompact s).data ++ '-' :: (monthStrCompact u).data))
        ++ ".ecsv".data := by
  show (name ++ "_" ++ monthStrCompact s ++ "-" ++ monthStrCompact u ++ ".ecsv").data = _
  simp [String.data_append, List.append_assoc]

/-- Extracting the period token of a default-named combined artifact yields
its `YYYYMM-YYYYMM` string (for an entity name free of underscores and
dots, as the `stars<N>` names are). -/
theorem candidate_month_default (name : String) (s u : Nat)
    (hnu : '_' ∉ name.data) (hnd : '.' ∉ name.data) :
    candidate_month (default_combined_name name s u)
      = some (monthStrCompact s ++ "-" ++ monthStrCompact u) := by
  unfold candidate_month
  have hstem : stemChars (default_combined_name name s u).data
      = name.data ++ '_' ::
          ((monthStrCompact s).data ++ '-' :: (monthStrCompact u).data) := by
    rw [default_combined_name_data]
    refine stemChars_append_ecsv _ ?_
    intro hdot
    rcases List.mem_append.mp hdot with h | h
    · exact hnd h
    · rcases List.mem_cons.mp h with h | h
      · cases h
      · exact (combined_token_chars s u '.' h).1 rfl
  rw [hstem]
  have hsplit : splitOnChar '_'
      (name.data ++ '_' ::
        ((monthStrCompact s).data ++ '-' :: (monthStrCompact u).data))
      = [name.data,
          (monthStrCompact s).data ++ '-' :: (monthStrCompact u).data] := by
    rw [splitOnChar_append _ hnu]
    rw [splitOnChar_of_not_mem]
    intro hund
    exact (combined_token_chars s u '_' hund).2 rfl
  rw [hsplit]
  simp only [Option.some.injEq]
  apply String.ext
  show (monthStrCompact s).data ++ '-' :: (monthStrCompact u).data
      = (monthStrCompact s ++ "-" ++ monthStrCompact u).data
  simp [String.data_append, List.append_assoc]

/-- The default combined name of a `stars…` entity matches the discovery
glob `stars*.ecsv`. -/
theorem default_name_matches_glob (suffix : String) (s u : Nat) :
    matches_stars_glob (default_combined_name ("stars" ++ suffix) s u) = true := by
  unfold matches_stars_glob
  have hdata := default_combined_name_data ("stars" ++ suffix) s u
  rw [Bool.and_eq_true, Bool.and_eq_true]
  refine ⟨⟨?_, ?_⟩, ?_⟩
  · refine List.isPrefixOf_iff_prefix.mpr ?_
    rw [hdata, String.data_append]
    rw [List.append_assoc]
    exact List.prefix_append _ _
  · refine List.isSuffixOf_iff_suffix.mpr ?_
    rw [hdata]
    exact List.suffix_append _ _
  · refine decide_eq_true ?_
    have hlen : (default_combined_name ("stars" ++ suffix) s u).length
        = (default_combined_name ("stars" ++ suffix) s u).data.length := rfl
    rw [hlen, hdata]
    simp only [List.length_append, List.length_cons, String.data_append,
      List.length_append]
    omega

/-- C10: a combined artifact written under the default name
`name_YYYYMM-YYYYMM.ecsv` matches the discovery glob `stars*.ecsv`, but its
extracted period token (13 characters, `YYYYMM-YYYYMM`) is never an element
of any `month_range` output (7 characters, `YYYY-MM`), so re-running
`to_ecsv_combine` selects exactly the artifacts whose token lies in the
month range — never a previously written default-named combined artifact. -/
theorem C10_combined_artifacts_never_feed_back {Row : Type} (suffix : String)
    (s u a b : Nat) (files : List (String × Table Row))
    (hnu : '_' ∉ ("stars" ++ suffix).data) (hnd : '.' ∉ ("stars" ++ suffix).data) :
    matches_stars_glob (default_combined_name ("stars" ++ suffix) s u) = true ∧
    candidate_month (default_combined_name ("stars" ++ suffix) s u)
      = some (monthStrCompact s ++ "-" ++ monthStrCompact u) ∧
    (monthStrCompact s ++ "-" ++ monthStrCompact u) ∉ month_range a b ∧
    (∀ c ∈ combine_candidates (month_range a b) files,
      c.1 ≠ default_combined_name ("stars" ++ suffix) s u) ∧
    (∀ c, c ∈ combine_candidates (month_range a b) files ↔
      (c ∈ files ∧ matches_stars_glob c.1 = true ∧
        ∃ tok, candidate_month c.1 = some tok ∧ tok ∈ month_range a b)) := by
  refine ⟨default_name_matches_glob suffix s u,
    candidate_month_default _ s u hnu hnd,
    combined_token_not_in_month_range s u a b, ?_,
    (combine_candidates_spec (month_range a b) files).1⟩
  intro c hc heq
  obtain ⟨_, _, tok, htok, hin⟩ :=
    ((combine_candidates_spec (month_range a b) files).1 c).mp hc
  rw [heq, candidate_month_default _ s u hnu hnd] at htok
  cases htok
  exact combined_token_not_in_month_range s u a b hin

/-- C10 witness: the June–September 2023 combined artifact of `stars289`
carries the token `202306-202309` and is not selected when re-combining that
same range over a directory that contains it. -/
theorem C10_combined_artifacts_never_feed_back_witness :
    candidate_month (default_combined_name ("stars" ++ "289") (2023 * 12 + 5)
        (2023 * 12 + 8))
      = some (monthStrCompact (2023 * 12 + 5) ++ "-"
          ++ monthStrCompact (2023 * 12 + 8)) ∧
    ("stars289_202306-202309.ecsv", (⟨[1], some ["x"]⟩ : Table Nat))
      ∉ combine_candidates (month_range (2023 * 12 + 5) (2023 * 12 + 8))
          [("stars289_202306-202309.ecsv", (⟨[1], some ["x"]⟩ : Table Nat))] := by
  have h := @C10_combined_artifacts_never_feed_back Nat "289"
    (2023 * 12 + 5) (2023 * 12 + 8) (2023 * 12 + 5) (2023 * 12 + 8)
    [("stars289_202306-202309.ecsv", (⟨[1], some ["x"]⟩ : Table Nat))]
    (by decide) (by decide)
  refine ⟨h.2.1, ?_⟩
  intro hmem
  exact h.2.2.2.1 _ hmem (by decide)

end TessIda
